import Mathlib

/-!
Verification development for the MyPegawaiStatus Telegram bot (`src/bot1.py`).

The development shallowly embeds the bot's pure logic (date/time validation,
credential lookup, the sheet store operations, handler branching) as Lean
definitions and proves the specified behavioural properties about them.
External services (Google Sheets, Google Calendar, the Telegram transport)
are modelled as oracles: the sheet is an explicit list of rows threaded
through the store functions, and the calendar/network outcomes are supplied
by an environment record.  Python exceptions are modelled with `Except`.
-/

/-! ## Dates and times

`bot1.py` parses dates with `datetime.strptime(s.strip(), "%d/%m/%Y")`.
CPython's `_strptime` regexes accept one or two digits for `%d` (values 1-31)
and `%m` (values 1-12) and exactly four digits for `%Y`; the whole string must
be consumed, and `datetime` then validates the calendar date (leap years,
month lengths, year >= 1).  The embedding parses character lists the same way.
-/

def digitVal (c : Char) : Nat := c.toNat - 48

/-- Field matcher for strptime `%d` / `%m`: two digits whose value lies in
`[1, hi]`, else (backtracking) a single nonzero digit.  The greedy two-digit
attempt is equivalent to the regex alternation `3[01]|[12]\d|0[1-9]|[1-9]`
(resp. `1[0-2]|0[1-9]|[1-9]`) because a failed two-digit match can never be
rescued by the one-digit alternative followed by the delimiter. -/
def parse2or1 (hi : Nat) : List Char → Option (Nat × List Char)
  | a :: b :: rest =>
    if a.isDigit ∧ b.isDigit ∧ 1 ≤ digitVal a * 10 + digitVal b ∧ digitVal a * 10 + digitVal b ≤ hi then
      some (digitVal a * 10 + digitVal b, rest)
    else if a.isDigit ∧ 1 ≤ digitVal a then
      some (digitVal a, b :: rest)
    else none
  | [a] => if a.isDigit ∧ 1 ≤ digitVal a then some (digitVal a, []) else none
  | [] => none

/-- Field matcher for strptime `%H` (hi = 23) / `%M` (hi = 59): two digits with
value at most `hi` (a leading zero is allowed), else a single digit. -/
def parse2max (hi : Nat) : List Char → Option (Nat × List Char)
  | a :: b :: rest =>
    if a.isDigit ∧ b.isDigit ∧ digitVal a * 10 + digitVal b ≤ hi then
      some (digitVal a * 10 + digitVal b, rest)
    else if a.isDigit then
      some (digitVal a, b :: rest)
    else none
  | [a] => if a.isDigit then some (digitVal a, []) else none
  | [] => none

/-- Field matcher for strptime `%Y`: exactly four digits. -/
def year4 : List Char → Option (Nat × List Char)
  | a :: b :: c :: d :: rest =>
    if a.isDigit ∧ b.isDigit ∧ c.isDigit ∧ d.isDigit then
      some (digitVal a * 1000 + digitVal b * 100 + digitVal c * 10 + digitVal d, rest)
    else none
  | _ => none

structure Date where
  year : Nat
  month : Nat
  day : Nat
deriving DecidableEq, Repr

def isLeapYear (y : Nat) : Bool := y % 4 == 0 && (y % 100 != 0 || y % 400 == 0)

def daysInMonth (m y : Nat) : Nat :=
  if m == 2 then (if isLeapYear y then 29 else 28)
  else if m == 4 ∨ m == 6 ∨ m == 9 ∨ m == 11 then 30
  else 31

/-- Parse the `%d/%m/%Y` prefix of a character list, returning the remaining
characters. -/
def parseDMY (cs : List Char) : Option ((Nat × Nat × Nat) × List Char) :=
  match parse2or1 31 cs with
  | some (d, '/' :: cs1) =>
    match parse2or1 12 cs1 with
    | some (m, '/' :: cs2) =>
      match year4 cs2 with
      | some (y, rest) => some ((d, m, y), rest)
      | none => none
    | _ => none
  | _ => none

/-- Calendar validation performed by `datetime` after the regex match:
year at least 1 (MINYEAR) and day within the month. -/
def mkValidDate (d m y : Nat) : Option Date :=
  if 1 ≤ y ∧ d ≤ daysInMonth m y then some ⟨y, m, d⟩ else none

/-- ASCII whitespace as removed by Python's `str.strip()`. -/
def isSpaceChar (c : Char) : Bool :=
  c == ' ' || c == '\t' || c == '\n' || c == '\r' || c == '\x0b' || c == '\x0c'

/-- Python's `s.strip()` (ASCII whitespace), written over the character list
so that it evaluates inside the kernel. -/
def pyStrip (s : String) : String :=
  String.mk (((s.data.dropWhile isSpaceChar).reverse.dropWhile isSpaceChar).reverse)

/-- Embedding of `parse_date_ddmmyyyy` from `bot1.py`.  The source returns the normalized
`strftime` string of the parsed date; since every later consumer immediately
re-parses that string, the embedding carries the parsed `Date` value itself
(the normalized string is recovered with `formatDate`). -/
def parse_date_ddmmyyyy (s : String) : Option Date :=
  match parseDMY (pyStrip s).data with
  | some (dmy, []) => mkValidDate dmy.1 dmy.2.1 dmy.2.2
  | _ => none

/-- Days since 1970-01-01 (proleptic Gregorian), Hinnant's civil-from-days
algorithm.  Integer division here is truncation toward zero, exactly as in
the original C++ formulation; all intermediate dividends are nonnegative. -/
def daysFromCivil (dt : Date) : Int :=
  let y : Int := if dt.month ≤ 2 then (dt.year : Int) - 1 else (dt.year : Int)
  let era : Int := (if 0 ≤ y then y else y - 399) / 400
  let yoe : Int := y - era * 400
  let mp : Int := ((dt.month : Int) + 9) % 12
  let doy : Int := (153 * mp + 2) / 5 + (dt.day : Int) - 1
  let doe : Int := yoe * 365 + yoe / 4 - yoe / 100 + doy
  era * 146097 + doe - 719468

/-- Python's `date.weekday()`: Monday = 0 .. Sunday = 6.
1970-01-01 (day 0) was a Thursday, index 3. -/
def weekday (dt : Date) : Int := (daysFromCivil dt + 3) % 7

/-- Chronological comparison of dates, as Python's `date < date`. -/
def dateLt (a b : Date) : Prop := daysFromCivil a < daysFromCivil b

instance (a b : Date) : Decidable (dateLt a b) := by
  unfold dateLt; infer_instance

/-- Embedding of `date + timedelta(days=1)` on a valid calendar date. -/
def succDate (d : Date) : Date :=
  if d.day < daysInMonth d.month d.year then ⟨d.year, d.month, d.day + 1⟩
  else if d.month < 12 then ⟨d.year, d.month + 1, 1⟩
  else ⟨d.year + 1, 1, 1⟩

def padNum (w n : Nat) : String :=
  let s := Nat.repr n
  String.mk (List.replicate (w - s.length) '0') ++ s

/-- Embedding of `strftime("%d/%m/%Y")` of a date: the normalized string the bot stores. -/
def formatDate (d : Date) : String :=
  padNum 2 d.day ++ "/" ++ padNum 2 d.month ++ "/" ++ padNum 4 d.year

/-! Time-of-day validation, `parse_time_hhmm` in `bot1.py`:
`re.fullmatch(r"\d\d:\d\d", s.strip())` followed by
`datetime.strptime(s.strip(), "%H:%M")`.  Given the fullmatch, strptime
succeeds exactly when hour <= 23 and minute <= 59, and the `strftime`
normalization returns the stripped input unchanged. -/

/-- The regex stage: exactly two digits, a colon, two digits. -/
def hhmmPattern (cs : List Char) : Bool :=
  match cs with
  | [a, b, c, d, e] => a.isDigit && b.isDigit && (c == ':') && d.isDigit && e.isDigit
  | _ => false

/-- The strptime stage on a fullmatched string: value bounds. -/
def hhmmValue (cs : List Char) : Bool :=
  match cs with
  | [a, b, _, d, e] =>
    decide (digitVal a * 10 + digitVal b ≤ 23) && decide (digitVal d * 10 + digitVal e ≤ 59)
  | _ => false

def parse_time_hhmm (s : String) : Option String :=
  if hhmmPattern (pyStrip s).data ∧ hhmmValue (pyStrip s).data then some (pyStrip s) else none

/-- A string that is already a well-formed `HH:MM` 24-hour time. -/
def isValidHHMM (s : String) : Bool := hhmmPattern s.data && hhmmValue s.data

/-- strptime of `f"{date_str} {time_str}"` with format `"%d/%m/%Y %H:%M"`,
used by the timed calendar event creator. -/
def parse_datetime_dmy_hm (s : String) : Option (Date × Nat × Nat) :=
  match parseDMY s.data with
  | some (dmy, ' ' :: cs1) =>
    match parse2max 23 cs1 with
    | some (h, ':' :: cs2) =>
      match parse2max 59 cs2 with
      | some (mi, []) =>
        match mkValidDate dmy.1 dmy.2.1 dmy.2.2 with
        | some d => some (d, h, mi)
        | none => none
      | _ => none
    | _ => none
  | _ => none

/-- Embedding of `_validate_not_past_and_not_weekend` from `bot1.py`, on the already-parsed
date (the source re-parses the normalized string, which yields the same date).
Returns the date when it is neither strictly past nor a weekend. -/
def validate_not_past_and_not_weekend (d today : Date) : Option Date :=
  if dateLt d today then none
  else if 5 ≤ weekday d then none
  else some d

/-! ## Officers -/

def OFFICERS : List (String × String) :=
  [("Pegawai Daerah", "DO"),
   ("Penolong Pegawai Daerah (Pentadbiran)", "ADO_PENTADBIRAN"),
   ("Penolong Pegawai Daerah (Pembangunan)", "ADO_PEMBANGUNAN")]

/-- Embedding of `_code_to_label` from `bot1.py` (leading underscores dropped). -/
def code_to_label (code : String) : String :=
  match OFFICERS.find? (fun p => p.2 == code) with
  | some p => p.1
  | none => code

def officer_label_to_code (label : String) : Option String :=
  match OFFICERS.find? (fun p => p.1 == label) with
  | some p => some p.2
  | none => none

/-! ## The record store (Google Sheets worksheet)

The worksheet is modelled as a list of rows, each row a list of cell strings;
the first row is the header row.  `_get_ws` creates the tab with this header
row when the tab does not exist yet. -/

def Row : Type := List String

instance : DecidableEq Row := by unfold Row; infer_instance

/-- The header row `_get_ws` writes when creating the `Sheet1` tab. -/
def SHEET_HEADERS : Row :=
  ["date", "officer", "lokasi", "urusan rasmi", "status keahlian",
   "start_time", "end_time", "updated_by", "updated_at"]

/-- Embedding of `dict(zip(headers, row)).get(k)`: zip truncates at the shorter list and a
duplicated header keeps its last value, hence lookup in the reversed zip. -/
def zipLookup (headers row : List String) (k : String) : Option String :=
  List.lookup k (List.zip headers row).reverse

/-- Pad a row with empty cells up to the header width, as `get_all_records`
presents short rows. -/
def padTo (n : Nat) (l : List String) : List String :=
  l ++ List.replicate (n - l.length) ""

/-- Embedding of `record.get(k, dflt)` on the dict `get_all_records` builds for a row. -/
def recGetD (headers row : List String) (k dflt : String) : String :=
  (zipLookup headers (padTo headers.length row) k).getD dflt

/-- The row appended by `save_status` (the `updated_at` timestamp string is
passed in by the caller's environment). -/
def save_status_row (dateStr officer lokasi urusan status startT endT updatedBy now : String) :
    Row :=
  [dateStr, officer, lokasi, urusan, status, startT, endT, updatedBy, now]

/-- Embedding of `save_status` as a transformation of the sheet contents. -/
def save_status (dateStr officer lokasi urusan status startT endT updatedBy now : String)
    (sheet : List Row) : List Row :=
  sheet ++ [save_status_row dateStr officer lokasi urusan status startT endT updatedBy now]

/-- Embedding of `query_status`: all data rows whose `date` and `officer` record fields
equal the arguments (`None` from a missing key never equals a string). -/
def query_status (dateStr officerCode : String) (sheet : List Row) : List Row :=
  match sheet with
  | [] => []
  | headers :: data =>
    data.filter (fun r =>
      (zipLookup headers (padTo headers.length r) "date" == some dateStr) &&
      (zipLookup headers (padTo headers.length r) "officer" == some officerCode))

/-- The matching test inside `delete_status`: the row must be at least as wide
as the header row and its `date`, `officer` and `urusan rasmi` fields must
equal the arguments. -/
def rowMatchesDel (headers : List String) (dateStr officerCode urusan : String) (row : Row) :
    Bool :=
  decide (headers.length ≤ row.length) &&
  (zipLookup headers row "date" == some dateStr) &&
  (zipLookup headers row "officer" == some officerCode) &&
  (zipLookup headers row "urusan rasmi" == some urusan)

/-- One-based sheet indices (starting at `k`) of the rows satisfying `p`,
in ascending order, as the enumeration loop in `delete_status` collects them. -/
def idxsFrom (p : α → Bool) (k : Nat) : List α → List Nat
  | [] => []
  | r :: rs => if p r then k :: idxsFrom p (k + 1) rs else idxsFrom p (k + 1) rs

/-- Insertion step of descending sort. -/
def insertDesc (n : Nat) : List Nat → List Nat
  | [] => [n]
  | m :: ms => if m ≤ n then n :: m :: ms else m :: insertDesc n ms

/-- Embedding of `list.sort(reverse=True)` on a list of naturals (stable order is
irrelevant here because the sorted lists contain no duplicates). -/
def sortDesc : List Nat → List Nat
  | [] => []
  | n :: ns => insertDesc n (sortDesc ns)

/-- Embedding of `ws.delete_rows(i)`: remove the row with 1-based index `i`. -/
def eraseSheetRow (sheet : List Row) (i : Nat) : List Row := sheet.eraseIdx (i - 1)

/-- Embedding of `delete_status` from `bot1.py`: collect the 1-based indices (data rows
start at index 2) of all matching rows, sort them descending, delete them in
that order, and report whether any index was collected. -/
def delete_status (dateStr officerCode urusan : String) (sheet : List Row) :
    List Row × Bool :=
  match sheet with
  | [] => ([], false)
  | headers :: data =>
    let idxs := idxsFrom (rowMatchesDel headers dateStr officerCode urusan) 2 data
    ((sortDesc idxs).foldl eraseSheetRow (headers :: data), decide (0 < idxs.length))


/-! ## The calendar adapter

Outcomes of the external Google Calendar calls are supplied by an oracle
environment; Python exceptions are an explicit `Except` layer.  Both creator
functions wrap their whole body in `try`/`except HttpError`/`except
Exception`, which catches every raisable error and returns `False`. -/

inductive PyErr where
  | httpError
  | exception
deriving DecidableEq, Repr

deriving instance DecidableEq for Except

/-- An event body as built by the bot: timed events carry `dateTime` bounds,
all-day events carry date-only bounds. -/
inductive GCalEvent where
  | timed (summary location description : String) (startDate : Date)
      (startHour startMin : Nat) (endDate : Date) (endHour endMin : Nat)
  | allDay (summary location description : String) (startDate endDate : Date)
deriving DecidableEq, Repr

structure CalEnv where
  calendarIds : String → Option String
  serviceResult : Except PyErr Unit
  insertResult : GCalEvent → Except PyErr Unit

def event_description (urusan status lokasi : String) : String :=
  "Urusan Rasmi: " ++ urusan ++ "\nStatus Keahlian: " ++ status ++ "\nLokasi: " ++ lokasi

/-- The timed event body `create_calendar_event_for_meeting` builds, `none`
when the strptime calls on date/time would raise. -/
def meeting_event_body (dateStr startT endT officer lokasi urusan status : String) :
    Option GCalEvent :=
  match parse_datetime_dmy_hm (dateStr ++ " " ++ startT),
        parse_datetime_dmy_hm (dateStr ++ " " ++ endT) with
  | some (d1, h1, m1), some (d2, h2, m2) =>
    some (.timed ("KENINGAU — " ++ code_to_label officer) lokasi
      (event_description urusan status lokasi) d1 h1 m1 d2 h2 m2)
  | _, _ => none

/-- The all-day event body `create_calendar_event_for_luar_daerah` builds:
date-only bounds spanning `[date, date + 1 day)`. -/
def luar_daerah_event_body (dateStr officer urusan status : String) : Option GCalEvent :=
  match parse_date_ddmmyyyy dateStr with
  | some d =>
    some (.allDay ("LUAR DAERAH — " ++ code_to_label officer) "LUAR DAERAH"
      (event_description urusan status "LUAR DAERAH") d (succDate d))
  | none => none

/-- Body of the `try` block of `create_calendar_event_for_meeting`: build the
service, parse the datetimes (raising `ValueError` on failure), insert. -/
def meetingTryBody (env : CalEnv) (dateStr startT endT officer lokasi urusan status : String) :
    Except PyErr Unit :=
  match env.serviceResult with
  | .error e => .error e
  | .ok _ =>
    match meeting_event_body dateStr startT endT officer lokasi urusan status with
    | some ev => env.insertResult ev
    | none => .error .exception

def create_calendar_event_for_meeting (env : CalEnv)
    (dateStr startT endT officer lokasi urusan status : String) : Except PyErr Bool :=
  match env.calendarIds officer with
  | none => .ok false
  | some _ =>
    match meetingTryBody env dateStr startT endT officer lokasi urusan status with
    | .ok _ => .ok true
    | .error _ => .ok false

/-- Body of the `try` block of `create_calendar_event_for_luar_daerah`. -/
def luarTryBody (env : CalEnv) (dateStr officer urusan status : String) : Except PyErr Unit :=
  match env.serviceResult with
  | .error e => .error e
  | .ok _ =>
    match luar_daerah_event_body dateStr officer urusan status with
    | some ev => env.insertResult ev
    | none => .error .exception

def create_calendar_event_for_luar_daerah (env : CalEnv)
    (dateStr officer urusan status : String) : Except PyErr Bool :=
  match env.calendarIds officer with
  | none => .ok false
  | some _ =>
    match luarTryBody env dateStr officer urusan status with
    | .ok _ => .ok true
    | .error _ => .ok false

/-! ## Conversation states, session data, and reply messages

The source encodes states as opaque integers `range(18)`; the embedding uses
an enumerated type (plus an explicit `END` for `ConversationHandler.END`).
The per-session `context.user_data` mapping is a record of the string keys the
handlers use.  Reply texts are reproduced from the source (the source file's
dash characters are mojibake of an en dash; plain ASCII hyphens stand in for
them, which affects no property). -/

inductive StateId where
  | CHOOSE_ROLE
  | ADMIN_USERNAME
  | ADMIN_PASSWORD
  | ADMIN_MAIN_MENU
  | ADMIN_DATE
  | ADMIN_OFFICER
  | ADMIN_LOCATION
  | ADMIN_OFFICIAL_BUSINESS
  | ADMIN_MEMBERSHIP_STATUS
  | ADMIN_OFFICIAL_BUSINESS_START
  | ADMIN_OFFICIAL_BUSINESS_END
  | STAFF_DATE
  | STAFF_OFFICER
  | ADMIN_CONTINUE_DECISION
  | ADMIN_DELETE_DATE
  | ADMIN_DELETE_OFFICER
  | ADMIN_DELETE_SELECT_EVENT
  | ADMIN_DELETE_CONFIRM
  | END
deriving DecidableEq, Repr

structure Ctx where
  username : Option String
  date : String
  officer : String
  lokasi : String
  urusan_rasmi : String
  status_keahlian : String
  start_time : String
  end_time : String
  delete_date : String
  checked_once : Bool
deriving DecidableEq, Repr

def emptyCtx : Ctx := ⟨none, "", "", "", "", "", "", "", "", false⟩

def MSG_DATE_FMT : String := "Tarikh tidak sah. Sila gunakan format DD/MM/YYYY."

def MSG_DATE_RETRY : String := "Tarikh tidak sah. Sila cuba lagi dengan format DD/MM/YYYY."

def MSG_DATE_PAST_ADMIN : String :=
  "Tarikh yang dimasukkan tidak sah! Sila masukkan tarikh pada hari ini/akan datang (DD/MM/YYYY):"

def MSG_DATE_WEEKEND_ADMIN : String := "Sila pilih tarikh bekerja (Isnin-Jumaat)."

def MSG_DATE_PAST_STAFF : String :=
  "Tarikh telah berlalu. Sila pilih tarikh hari ini atau tarikh pada masa hadapan."

def MSG_DATE_WEEKEND_STAFF : String :=
  "Tarikh jatuh pada hujung minggu. Sila pilih hari bekerja (Isnin-Jumaat)."

def MSG_PICK_OFFICER_UPDATE : String := "Sila pilih pegawai untuk dikemaskini:"

def MSG_PICK_OFFICER_DELETE : String := "Sila pilih pegawai untuk dipadam:"

def MSG_WRONG_PASSWORD : String := "Kata laluan salah. Sila /start semula."

def MSG_LOGIN_OK : String := "Log masuk berjaya! Sila pilih tindakan:"

def MSG_TIME_START_PROMPT : String := "Nyatakan masa mula urusan (HH:MM):"

def MSG_TIME_END_PROMPT : String := "Nyatakan masa tamat urusan (HH:MM):"

def MSG_TIME_INVALID_START : String := "Format masa tidak sah. Gunakan HH:MM (cth 09:00)."

def MSG_TIME_INVALID_END : String := "Format masa tidak sah. Gunakan HH:MM (cth 17:00)."

def MSG_LD_CAL_OK : String :=
  "Status LUAR DAERAH berjaya dikemaskini ke Google Calendar (acara sepanjang hari).\n\nTerima kasih."

def MSG_LD_CAL_FAIL : String :=
  "Status LUAR DAERAH berjaya dikemaskini. (Gagal menambah acara sepanjang hari ke Calendar - semak konfigurasi.)\n\nTerima kasih."

def MSG_K_CAL_OK : String := "Status berjaya dikemaskini ke Google Calendar.\n\nTerima kasih."

def MSG_K_CAL_FAIL : String :=
  "Status berjaya dikemaskini. (Gagal menambah acara ke Calendar - semak konfigurasi.)\n\nTerima kasih."

/-! ## Admin credentials

`ADMIN_CREDENTIALS` is a Python dict built from up to three environment
variable pairs; a pair is inserted only when both name and password are
truthy (non-empty).  A duplicated name overwrites the earlier entry. -/

/-- Python truthiness of an optional environment string. -/
def truthyOpt : Option String → Option String
  | some s => if s == "" then none else some s
  | none => none

/-- Insertion into a dict modelled as an association list with unique keys:
overwrite the value when the key is present, append otherwise. -/
def dictInsert (k v : String) (m : List (String × String)) : List (String × String) :=
  if m.any (fun q => q.1 == k) then m.map (fun q => if q.1 == k then (k, v) else q)
  else m ++ [(k, v)]

/-- Embedding of `dict.get(k)`: `None` when the key is absent. -/
def dictGet (m : List (String × String)) (k : String) : Option String := List.lookup k m

/-- One `if aX_name and aX_pass: _admins[aX_name] = aX_pass` step. -/
def credStep (n p : Option String) (m : List (String × String)) : List (String × String) :=
  match truthyOpt n, truthyOpt p with
  | some n', some p' => dictInsert n' p' m
  | _, _ => m

/-- Construction of `ADMIN_CREDENTIALS` from the six environment values. -/
def loadAdminCredentials (n1 p1 n2 p2 n3 p3 : Option String) : List (String × String) :=
  credStep n3 p3 (credStep n2 p2 (credStep n1 p1 []))

/-! ## Handlers

Each handler takes the session data and the inbound message text and returns
the reply text, the next conversation state, and the updated session data.
Handlers that call external adapters additionally take an oracle environment
and return inside `Except PyErr`, with the adapter calls they performed
recorded as a list of effects. -/

structure BotEnv where
  cal : CalEnv
  appendResult : Except PyErr Unit
  now : String

inductive Effect where
  | saveRow (row : Row)
  | calAllDay (dateStr officer urusan status : String)
  | calTimed (dateStr startT endT officer lokasi urusan status : String)
deriving DecidableEq

/-- Embedding of `admin_username`: store the stripped username, ask for the password. -/
def admin_username (ctx : Ctx) (input : String) : String × StateId × Ctx :=
  ("Sila masukkan kata laluan:", StateId.ADMIN_PASSWORD, { ctx with username := some (pyStrip input) })

/-- Embedding of `admin_password`: `ADMIN_CREDENTIALS.get(username) != password` ends the
conversation at once; a match proceeds to the admin main menu.  (The source
also sets an `is_admin` flag, unused elsewhere.) -/
def admin_password (creds : List (String × String)) (ctx : Ctx) (input : String) :
    String × StateId × Ctx :=
  let password := pyStrip input
  let stored := match ctx.username with
    | some u => dictGet creds u
    | none => none
  if stored ≠ some password then (MSG_WRONG_PASSWORD, StateId.END, ctx)
  else (MSG_LOGIN_OK, StateId.ADMIN_MAIN_MENU, ctx)

/-- Embedding of `admin_date`: parse, then validate not-past-and-not-weekend; on a
validation failure re-derive the reason for the specific message (the final
fallback arm mirrors the source's unreachable re-parse `except` branch). -/
def admin_date (today : Date) (ctx : Ctx) (input : String) : String × StateId × Ctx :=
  match parse_date_ddmmyyyy input with
  | none => (MSG_DATE_FMT, StateId.ADMIN_DATE, ctx)
  | some d =>
    match validate_not_past_and_not_weekend d today with
    | some v => (MSG_PICK_OFFICER_UPDATE, StateId.ADMIN_OFFICER, { ctx with date := formatDate v })
    | none =>
      if dateLt d today then (MSG_DATE_PAST_ADMIN, StateId.ADMIN_DATE, ctx)
      else if 5 ≤ weekday d then (MSG_DATE_WEEKEND_ADMIN, StateId.ADMIN_DATE, ctx)
      else (MSG_DATE_RETRY, StateId.ADMIN_DATE, ctx)

/-- Embedding of `staff_date`: same validation with staff-specific messages; an accepted
date also clears the `checked_once` flag. -/
def staff_date (today : Date) (ctx : Ctx) (input : String) : String × StateId × Ctx :=
  match parse_date_ddmmyyyy input with
  | none => (MSG_DATE_FMT, StateId.STAFF_DATE, ctx)
  | some d =>
    match validate_not_past_and_not_weekend d today with
    | some v =>
      ("Tarikh ditetapkan kepada " ++ formatDate v ++ ". Sila pilih pegawai untuk disemak:",
       StateId.STAFF_OFFICER, { ctx with date := formatDate v, checked_once := false })
    | none =>
      if dateLt d today then (MSG_DATE_PAST_STAFF, StateId.STAFF_DATE, ctx)
      else if 5 ≤ weekday d then (MSG_DATE_WEEKEND_STAFF, StateId.STAFF_DATE, ctx)
      else (MSG_DATE_RETRY, StateId.STAFF_DATE, ctx)

/-- Embedding of `admin_membership_status`: store the membership status; for LUAR DAERAH
persist at once with empty times and create the all-day event, otherwise ask
for the start time.  The store write (`save_status`) is not wrapped in any
`try`: a raising append propagates out of the handler. -/
def admin_membership_status (env : BotEnv) (ctx : Ctx) (input : String) :
    Except PyErr (List Effect × String × StateId × Ctx) :=
  let status := pyStrip input
  let ctx1 := { ctx with status_keahlian := status }
  if ctx1.lokasi == "LUAR DAERAH" then
    match env.appendResult with
    | .error e => .error e
    | .ok _ =>
      match create_calendar_event_for_luar_daerah env.cal ctx1.date ctx1.officer
          ctx1.urusan_rasmi status with
      | .ok calOk =>
        .ok ([Effect.saveRow (save_status_row ctx1.date ctx1.officer ctx1.lokasi
                ctx1.urusan_rasmi status "" "" (ctx1.username.getD "admin") env.now),
              Effect.calAllDay ctx1.date ctx1.officer ctx1.urusan_rasmi status],
             if calOk then MSG_LD_CAL_OK else MSG_LD_CAL_FAIL,
             StateId.ADMIN_CONTINUE_DECISION, ctx1)
      | .error e => .error e
  else
    .ok ([], MSG_TIME_START_PROMPT, StateId.ADMIN_OFFICIAL_BUSINESS_START, ctx1)

/-- Embedding of `admin_official_business_start`: re-prompt the same state on an invalid
time, otherwise store the time and ask for the end time.  No adapter call. -/
def admin_official_business_start (ctx : Ctx) (input : String) :
    List Effect × String × StateId × Ctx :=
  match parse_time_hhmm input with
  | none => ([], MSG_TIME_INVALID_START, StateId.ADMIN_OFFICIAL_BUSINESS_START, ctx)
  | some t =>
    ([], MSG_TIME_END_PROMPT, StateId.ADMIN_OFFICIAL_BUSINESS_END, { ctx with start_time := t })

/-- Embedding of `admin_official_business_end`: re-prompt the same state on an invalid
time; otherwise persist the KENINGAU row (both times) and create the timed
calendar event. -/
def admin_official_business_end (env : BotEnv) (ctx : Ctx) (input : String) :
    Except PyErr (List Effect × String × StateId × Ctx) :=
  match parse_time_hhmm input with
  | none => .ok ([], MSG_TIME_INVALID_END, StateId.ADMIN_OFFICIAL_BUSINESS_END, ctx)
  | some t =>
    let ctx1 := { ctx with end_time := t }
    match env.appendResult with
    | .error e => .error e
    | .ok _ =>
      match create_calendar_event_for_meeting env.cal ctx1.date ctx1.start_time t
          ctx1.officer ctx1.lokasi ctx1.urusan_rasmi ctx1.status_keahlian with
      | .ok calOk =>
        .ok ([Effect.saveRow (save_status_row ctx1.date ctx1.officer ctx1.lokasi
                ctx1.urusan_rasmi ctx1.status_keahlian ctx1.start_time t
                (ctx1.username.getD "admin") env.now),
              Effect.calTimed ctx1.date ctx1.start_time t ctx1.officer ctx1.lokasi
                ctx1.urusan_rasmi ctx1.status_keahlian],
             if calOk then MSG_K_CAL_OK else MSG_K_CAL_FAIL,
             StateId.ADMIN_CONTINUE_DECISION, ctx1)
      | .error e => .error e

/-- Embedding of `admin_delete_date`: only format validation, no past/weekend check. -/
def admin_delete_date (ctx : Ctx) (input : String) : String × StateId × Ctx :=
  match parse_date_ddmmyyyy input with
  | none => (MSG_DATE_FMT, StateId.ADMIN_DELETE_DATE, ctx)
  | some d =>
    (MSG_PICK_OFFICER_DELETE, StateId.ADMIN_DELETE_OFFICER, { ctx with delete_date := formatDate d })

/-- Selection label built by `admin_delete_officer` (and re-derived by
`admin_delete_select_event`) for one queried record. -/
def deleteSelectLabel (headers row : List String) : String :=
  let urusan := recGetD headers row "urusan rasmi" "Unknown"
  let lokasi := recGetD headers row "lokasi" ""
  let startT := recGetD headers row "masa mula" ""
  let endT := recGetD headers row "masa tamat" ""
  if lokasi == "LUAR DAERAH" then "LUAR DAERAH: " ++ urusan
  else if startT != "" && endT != "" then startT ++ "-" ++ endT ++ ": " ++ urusan
  else urusan

/-- The selectable labels `admin_delete_officer` offers for a date/officer. -/
def admin_delete_officer_labels (sheet : List Row) (dateStr officerCode : String) :
    List String :=
  match sheet with
  | [] => []
  | headers :: _ => (query_status dateStr officerCode sheet).map (deleteSelectLabel headers)

/-- Per-record summary lines rendered by `staff_officer`. -/
def renderRecordLines (headers row : List String) : List String :=
  let lokasi := recGetD headers row "lokasi" ""
  let urusan := recGetD headers row "urusan rasmi" ""
  let status := recGetD headers row "status keahlian" ""
  let masaMula := recGetD headers row "masa mula" ""
  let masaTamat := recGetD headers row "masa tamat" ""
  ["Lokasi: " ++ lokasi, "Urusan Rasmi: " ++ urusan, "Status Keahlian: " ++ status] ++
  [if lokasi == "LUAR DAERAH" then "Masa: Sepanjang Hari"
   else if masaMula != "" && masaTamat != "" then "Masa: " ++ masaMula ++ " - " ++ masaTamat
   else if masaMula != "" then "Masa: " ++ masaMula ++ " - (Tamat tidak dinyatakan)"
   else if masaTamat != "" then "Masa: (Mula tidak dinyatakan) - " ++ masaTamat
   else "Masa: Tidak dinyatakan"] ++
  ["---"]

/-- The query reply `staff_officer` sends for a chosen officer. -/
def staff_officer_reply (sheet : List Row) (dateStr officerCode : String) : String :=
  match sheet with
  | [] => "Tiada rekod untuk tarikh tersebut."
  | headers :: _ =>
    match query_status dateStr officerCode sheet with
    | [] => "Tiada rekod untuk tarikh tersebut."
    | records => String.intercalate "\n" (records.map (renderRecordLines headers)).flatten

/-! ## Specification-side predicates and concrete fixtures -/

/-- Specification reading of a valid time entry: exactly two digits, a colon,
two digits, forming a valid 24-hour time. -/
def SpecHHMM (t : String) : Prop :=
  ∃ a b c d : Char, t.data = [a, b, ':', c, d] ∧
    (a.isDigit ∧ b.isDigit ∧ c.isDigit ∧ d.isDigit) ∧
    digitVal a * 10 + digitVal b ≤ 23 ∧ digitVal c * 10 + digitVal d ≤ 59

/-- Specification reading of the delete match: the row's date, officer and
business-description fields (under the header mapping) equal the arguments. -/
def rowFieldsMatch (headers : List String) (dateStr officerCode urusan : String) (row : Row) :
    Bool :=
  (zipLookup headers row "date" == some dateStr) &&
  (zipLookup headers row "officer" == some officerCode) &&
  (zipLookup headers row "urusan rasmi" == some urusan)

def Effect.isCalTimed : Effect → Bool
  | .calTimed _ _ _ _ _ _ _ => true
  | _ => false

def rowA : Row :=
  save_status_row "13/10/2026" "DO" "KENINGAU" "Mesyuarat" "Ahli Biasa" "09:00" "10:00"
    "admin1" "2026-10-12 09:00:00"

def rowB : Row :=
  save_status_row "13/10/2026" "DO" "LUAR DAERAH" "Lawatan" "Jemputan" "" ""
    "admin1" "2026-10-12 09:00:00"

def ldCtx : Ctx := ⟨some "admin1", "13/10/2026", "DO", "LUAR DAERAH", "Mesyuarat", "", "", "", "", false⟩

def kCtx : Ctx := ⟨some "admin1", "13/10/2026", "DO", "KENINGAU", "Mesyuarat", "Ahli Biasa", "09:00", "", "", false⟩

def ctxA : Ctx := ⟨some "alice", "", "", "", "", "", "", "", "", false⟩

def okCalEnv : CalEnv := ⟨fun _ => some "cal-do", Except.ok (), fun _ => Except.ok ()⟩

def failCalEnv : CalEnv := ⟨fun _ => some "cal-do", Except.ok (), fun _ => Except.error PyErr.httpError⟩

def okBotEnv : BotEnv := ⟨okCalEnv, Except.ok (), "2026-10-12 09:00:00"⟩

def qualifiedBotEnv : BotEnv := ⟨failCalEnv, Except.ok (), "2026-10-12 09:00:00"⟩

def badAppendBotEnv : BotEnv := ⟨okCalEnv, Except.error PyErr.exception, "2026-10-12 09:00:00"⟩

def credsA : List (String × String) :=
  loadAdminCredentials (some "alice") (some "pw1") none none none none

/-! ## Deletion semantics: deleting descending indices is filtering

`delete_status` first collects all matching 1-based indices (ascending, data
rows starting at index 2), then deletes bottom-to-top.  The lemmas below show
this equals filtering out the matching rows. -/

theorem idxsFrom_succ (p : α → Bool) (k : Nat) (l : List α) :
    idxsFrom p (k + 1) l = (idxsFrom p k l).map (· + 1) := by
  induction l generalizing k with
  | nil => rfl
  | cons r rs ih =>
    by_cases h : p r <;> simp [idxsFrom, h, ih (k + 1)]

theorem idxsFrom_le (p : α → Bool) (k : Nat) (l : List α) :
    ∀ i ∈ idxsFrom p k l, k ≤ i := by
  induction l generalizing k with
  | nil => simp [idxsFrom]
  | cons r rs ih =>
    intro i hi
    by_cases h : p r
    · simp only [idxsFrom, if_pos h, List.mem_cons] at hi
      rcases hi with rfl | hi
      · exact Nat.le_refl _
      · exact Nat.le_of_succ_le (ih (k + 1) i hi)
    · simp only [idxsFrom, if_neg h] at hi
      exact Nat.le_of_succ_le (ih (k + 1) i hi)

theorem idxsFrom_pairwise (p : α → Bool) (k : Nat) (l : List α) :
    (idxsFrom p k l).Pairwise (· < ·) := by
  induction l generalizing k with
  | nil => simp [idxsFrom]
  | cons r rs ih =>
    by_cases h : p r
    · simp only [idxsFrom, if_pos h]
      exact List.pairwise_cons.mpr
        ⟨fun i hi => Nat.lt_of_succ_le (idxsFrom_le p (k + 1) rs i hi), ih (k + 1)⟩
    · simpa [idxsFrom, h] using ih (k + 1)

theorem idxsFrom_length (p : α → Bool) (k : Nat) (l : List α) :
    (idxsFrom p k l).length = l.countP p := by
  induction l generalizing k with
  | nil => rfl
  | cons r rs ih =>
    by_cases h : p r <;> simp [idxsFrom, h, List.countP_cons, ih (k + 1)]

theorem insertDesc_of_lt (n : Nat) (ms : List Nat) (h : ∀ m ∈ ms, n < m) :
    insertDesc n ms = ms ++ [n] := by
  induction ms with
  | nil => rfl
  | cons m ms ih =>
    have hm : n < m := h m (List.mem_cons_self m ms)
    have : ¬ m ≤ n := Nat.not_le.mpr hm
    simp only [insertDesc, if_neg this, List.cons_append]
    exact congrArg _ (ih fun x hx => h x (List.mem_cons_of_mem m hx))

theorem sortDesc_of_pairwise_lt (l : List Nat) (h : l.Pairwise (· < ·)) :
    sortDesc l = l.reverse := by
  induction l with
  | nil => rfl
  | cons n ns ih =>
    rcases List.pairwise_cons.mp h with ⟨h1, h2⟩
    simp only [sortDesc, ih h2, List.reverse_cons]
    exact insertDesc_of_lt n ns.reverse fun m hm => h1 m (List.mem_reverse.mp hm)

theorem foldl_eraseIdx_map_succ (a : α) (l : List α) (js : List Nat) :
    (js.map (· + 1)).foldl (fun s j => s.eraseIdx j) (a :: l) =
      a :: js.foldl (fun s j => s.eraseIdx j) l := by
  induction js generalizing l with
  | nil => rfl
  | cons j js ih => simpa [List.eraseIdx] using ih (l.eraseIdx j)

theorem foldl_eraseIdx_rev (p : α → Bool) (l : List α) :
    ((idxsFrom p 0 l).reverse).foldl (fun s j => s.eraseIdx j) l =
      l.filter (fun a => !(p a)) := by
  induction l with
  | nil => rfl
  | cons a l ih =>
    by_cases h : p a
    · have : idxsFrom p 0 (a :: l) = 0 :: (idxsFrom p 0 l).map (· + 1) := by
        simp [idxsFrom, h, idxsFrom_succ p 0 l]
      rw [this]
      simp only [List.reverse_cons, List.foldl_append, ← List.map_reverse,
        foldl_eraseIdx_map_succ, ih]
      simp [List.eraseIdx, List.filter, h]
    · have : idxsFrom p 0 (a :: l) = (idxsFrom p 0 l).map (· + 1) := by
        simp [idxsFrom, h, idxsFrom_succ p 0 l]
      rw [this, ← List.map_reverse, foldl_eraseIdx_map_succ, ih]
      simp [List.filter, h]

theorem foldl_eraseSheetRow_map_two (h : Row) (data : List Row) (js : List Nat) :
    (js.map (· + 2)).foldl eraseSheetRow (h :: data) =
      h :: js.foldl (fun s j => s.eraseIdx j) data := by
  induction js generalizing data with
  | nil => rfl
  | cons j js ih =>
    have step : eraseSheetRow (h :: data) (j + 2) = h :: data.eraseIdx j := rfl
    simpa [step] using ih (data.eraseIdx j)

/-- Core characterization of `delete_status` on a nonempty sheet: the result
is the header row followed by the non-matching data rows, and the boolean
reports whether some data row matched. -/
theorem delete_status_eq_filter (dateStr officerCode urusan : String)
    (headers : Row) (data : List Row) :
    delete_status dateStr officerCode urusan (headers :: data) =
      (headers :: data.filter (fun r => !(rowMatchesDel headers dateStr officerCode urusan r)),
       data.any (rowMatchesDel headers dateStr officerCode urusan)) := by
  set p := rowMatchesDel headers dateStr officerCode urusan with hp
  have hidx : idxsFrom p 2 data = (idxsFrom p 0 data).map (· + 2) := by
    have h1 : idxsFrom p 2 data = (idxsFrom p 1 data).map (· + 1) := idxsFrom_succ p 1 data
    have h2 : idxsFrom p 1 data = (idxsFrom p 0 data).map (· + 1) := idxsFrom_succ p 0 data
    rw [h1, h2, List.map_map]
    refine List.map_congr_left fun x _ => ?_
    show x + 1 + 1 = x + 2
    omega
  have hsort : sortDesc (idxsFrom p 2 data) = (idxsFrom p 2 data).reverse :=
    sortDesc_of_pairwise_lt _ (idxsFrom_pairwise p 2 data)
  have hd : delete_status dateStr officerCode urusan (headers :: data) =
      (List.foldl eraseSheetRow (headers :: data) (sortDesc (idxsFrom p 2 data)),
       decide (0 < (idxsFrom p 2 data).length)) := rfl
  rw [hd, hsort, hidx, ← List.map_reverse, foldl_eraseSheetRow_map_two, foldl_eraseIdx_rev]
  simp only [Prod.mk.injEq]
  refine ⟨trivial, ?_⟩
  rw [← hidx, idxsFrom_length]
  cases hb : data.any p with
  | false =>
    have hall : ∀ x ∈ data, ¬ p x = true := by
      intro x hx hpx
      exact absurd (List.any_eq_true.mpr ⟨x, hx, hpx⟩) (by simp [hb])
    have : data.countP p = 0 := List.countP_eq_zero.mpr hall
    simp [this]
  | true =>
    have : 0 < data.countP p := List.countP_pos_iff.mpr (List.any_eq_true.mp hb)
    simp [this]

/-- Every outcome of the timed creator is a returned boolean: the surrounding
`except` clauses catch every error. -/
theorem create_meeting_total (env : CalEnv)
    (dateStr startT endT officer lokasi urusan status : String) :
    ∃ b, create_calendar_event_for_meeting env dateStr startT endT officer lokasi urusan status =
      .ok b := by
  unfold create_calendar_event_for_meeting
  cases env.calendarIds officer with
  | none => exact ⟨false, rfl⟩
  | some c =>
    cases hm : meetingTryBody env dateStr startT endT officer lokasi urusan status with
    | ok u => exact ⟨true, rfl⟩
    | error e => exact ⟨false, rfl⟩

/-- Every outcome of the all-day creator is a returned boolean. -/
theorem create_luar_total (env : CalEnv) (dateStr officer urusan status : String) :
    ∃ b, create_calendar_event_for_luar_daerah env dateStr officer urusan status = .ok b := by
  unfold create_calendar_event_for_luar_daerah
  cases env.calendarIds officer with
  | none => exact ⟨false, rfl⟩
  | some c =>
    cases hm : luarTryBody env dateStr officer urusan status with
    | ok u => exact ⟨true, rfl⟩
    | error e => exact ⟨false, rfl⟩

/-! ## Time validation lemmas -/

theorem parse_time_eq_some (s t : String) (h : parse_time_hhmm s = some t) :
    t = pyStrip s ∧ isValidHHMM t = true := by
  unfold parse_time_hhmm at h
  split at h
  · rename_i hc
    injection h with h
    subst h
    exact ⟨rfl, by simp [isValidHHMM, hc.1, hc.2]⟩
  · exact absurd h (by simp)

theorem isValidHHMM_ne_empty (s : String) (h : isValidHHMM s = true) : s ≠ "" := by
  intro he
  rw [he] at h
  exact absurd h (by decide)

theorem hhmm_chars (cs : List Char) (hp : hhmmPattern cs = true) (hv : hhmmValue cs = true) :
    ∃ a b c d : Char, cs = [a, b, ':', c, d] ∧
      (a.isDigit ∧ b.isDigit ∧ c.isDigit ∧ d.isDigit) ∧
      digitVal a * 10 + digitVal b ≤ 23 ∧ digitVal c * 10 + digitVal d ≤ 59 := by
  revert hp hv
  rcases cs with _ | ⟨a, _ | ⟨b, _ | ⟨c, _ | ⟨d, _ | ⟨e, _ | ⟨f, rest⟩⟩⟩⟩⟩⟩ <;> intro hp hv
  all_goals try exact Bool.noConfusion hp
  have hp' : (a.isDigit && b.isDigit && (c == ':') && d.isDigit && e.isDigit) = true := hp
  simp only [Bool.and_eq_true, beq_iff_eq] at hp'
  obtain ⟨⟨⟨⟨ha, hb⟩, hc⟩, hd⟩, he⟩ := hp'
  have hv' : (decide (digitVal a * 10 + digitVal b ≤ 23) &&
      decide (digitVal d * 10 + digitVal e ≤ 59)) = true := hv
  simp only [Bool.and_eq_true, decide_eq_true_eq] at hv'
  subst hc
  exact ⟨a, b, d, e, rfl, ⟨ha, hb, hd, he⟩, hv'.1, hv'.2⟩

/-- C4: a string is accepted by the time validator iff (after the strip the
source applies) it is exactly two digits, a colon and two digits forming a
valid 24-hour time; in particular "25:61" is rejected, and on rejection the
start-time handler re-prompts its own state. -/
theorem parse_time_hhmm_spec (ctx : Ctx) (s : String) :
    ((parse_time_hhmm s).isSome = true ↔ SpecHHMM (pyStrip s)) ∧
    parse_time_hhmm "25:61" = none ∧
    (parse_time_hhmm s = none →
      admin_official_business_start ctx s =
        ([], MSG_TIME_INVALID_START, StateId.ADMIN_OFFICIAL_BUSINESS_START, ctx)) := by
  refine ⟨⟨?_, ?_⟩, by decide, ?_⟩
  · intro h
    cases hp : parse_time_hhmm s with
    | none => rw [hp] at h; exact absurd h (by simp)
    | some t =>
      obtain ⟨ht, hv⟩ := parse_time_eq_some s t hp
      subst ht
      rw [show isValidHHMM (pyStrip s) =
        (hhmmPattern (pyStrip s).data && hhmmValue (pyStrip s).data) from rfl,
        Bool.and_eq_true] at hv
      obtain ⟨a, b, c, d, hcs, hdig, h1, h2⟩ := hhmm_chars _ hv.1 hv.2
      exact ⟨a, b, c, d, hcs, hdig, h1, h2⟩
  · intro hs
    obtain ⟨a, b, c, d, hcs, ⟨da, db, dc, dd⟩, h1, h2⟩ := hs
    simp [parse_time_hhmm, hcs, hhmmPattern, hhmmValue, da, db, dc, dd, h1, h2]
  · intro h
    unfold admin_official_business_start
    rw [h]

/-- C4 witness: the concrete rejection of "25:61" re-prompts the same state. -/
theorem parse_time_hhmm_spec_witness :
    admin_official_business_start emptyCtx "25:61" =
      ([], MSG_TIME_INVALID_START, StateId.ADMIN_OFFICIAL_BUSINESS_START, emptyCtx) := by
  have h := parse_time_hhmm_spec emptyCtx "25:61"
  exact h.2.2 h.2.1

/-- C2: the KENINGAU time entry persists nothing until both times pass the
validator: the start handler never emits a store write and re-prompts itself
on invalid input; the end handler re-prompts itself on invalid input and
performs the single store write only after both times are held, with both
persisted time fields valid (hence non-empty). -/
theorem keningau_requires_both_times (env : BotEnv) (ctx : Ctx) :
    (∀ input, parse_time_hhmm input = none →
      admin_official_business_start ctx input =
        ([], MSG_TIME_INVALID_START, StateId.ADMIN_OFFICIAL_BUSINESS_START, ctx) ∧
      admin_official_business_end env ctx input =
        .ok ([], MSG_TIME_INVALID_END, StateId.ADMIN_OFFICIAL_BUSINESS_END, ctx)) ∧
    (∀ input t, parse_time_hhmm input = some t →
      admin_official_business_start ctx input =
        ([], MSG_TIME_END_PROMPT, StateId.ADMIN_OFFICIAL_BUSINESS_END,
         { ctx with start_time := t }) ∧
      isValidHHMM t = true) ∧
    (∀ input t, parse_time_hhmm input = some t → env.appendResult = .ok () →
      ∃ calOk : Bool,
        admin_official_business_end env ctx input =
          .ok ([Effect.saveRow (save_status_row ctx.date ctx.officer ctx.lokasi ctx.urusan_rasmi
                  ctx.status_keahlian ctx.start_time t (ctx.username.getD "admin") env.now),
                Effect.calTimed ctx.date ctx.start_time t ctx.officer ctx.lokasi ctx.urusan_rasmi
                  ctx.status_keahlian],
               if calOk then MSG_K_CAL_OK else MSG_K_CAL_FAIL,
               StateId.ADMIN_CONTINUE_DECISION, { ctx with end_time := t }) ∧
        (isValidHHMM ctx.start_time = true → ctx.start_time ≠ "" ∧ t ≠ "")) := by
  refine ⟨?_, ?_, ?_⟩
  · intro input h
    constructor
    · unfold admin_official_business_start; rw [h]
    · unfold admin_official_business_end; rw [h]
  · intro input t h
    constructor
    · unfold admin_official_business_start; rw [h]
    · exact (parse_time_eq_some input t h).2
  · intro input t h happ
    obtain ⟨b, hb⟩ := create_meeting_total env.cal ctx.date ctx.start_time t ctx.officer
      ctx.lokasi ctx.urusan_rasmi ctx.status_keahlian
    refine ⟨b, ?_, ?_⟩
    · unfold admin_official_business_end
      rw [h]
      dsimp only
      rw [happ, hb]
    · intro hstart
      exact ⟨isValidHHMM_ne_empty _ hstart,
        isValidHHMM_ne_empty t (parse_time_eq_some input t h).2⟩

/-- C2 witness: a concrete run through both handlers. -/
theorem keningau_requires_both_times_witness :
    admin_official_business_start kCtx "bogus" =
      ([], MSG_TIME_INVALID_START, StateId.ADMIN_OFFICIAL_BUSINESS_START, kCtx) ∧
    (∃ calOk : Bool,
      admin_official_business_end okBotEnv kCtx "17:30" =
        .ok ([Effect.saveRow (save_status_row kCtx.date kCtx.officer kCtx.lokasi kCtx.urusan_rasmi
                kCtx.status_keahlian kCtx.start_time "17:30" (kCtx.username.getD "admin")
                okBotEnv.now),
              Effect.calTimed kCtx.date kCtx.start_time "17:30" kCtx.officer kCtx.lokasi
                kCtx.urusan_rasmi kCtx.status_keahlian],
             if calOk then MSG_K_CAL_OK else MSG_K_CAL_FAIL,
             StateId.ADMIN_CONTINUE_DECISION, { kCtx with end_time := "17:30" }) ∧
      (isValidHHMM kCtx.start_time = true → kCtx.start_time ≠ "" ∧ "17:30" ≠ "")) := by
  have h := keningau_requires_both_times okBotEnv kCtx
  exact ⟨(h.1 "bogus" (by decide)).1, h.2.2 "17:30" "17:30" (by decide) rfl⟩

/-- C3: a date entry (admin update and staff query) is accepted only when it
parses as DD/MM/YYYY, is not strictly before today, and is not a Saturday or
Sunday; each failure reason yields its own distinct message and re-prompts
the same state, while an accepted date is stored (normalized) and the handler
advances to officer selection. -/
theorem date_entry_validation (today : Date) (ctx : Ctx) (input : String) :
    (parse_date_ddmmyyyy input = none →
      admin_date today ctx input = (MSG_DATE_FMT, StateId.ADMIN_DATE, ctx) ∧
      staff_date today ctx input = (MSG_DATE_FMT, StateId.STAFF_DATE, ctx)) ∧
    (∀ d, parse_date_ddmmyyyy input = some d → dateLt d today →
      admin_date today ctx input = (MSG_DATE_PAST_ADMIN, StateId.ADMIN_DATE, ctx) ∧
      staff_date today ctx input = (MSG_DATE_PAST_STAFF, StateId.STAFF_DATE, ctx)) ∧
    (∀ d, parse_date_ddmmyyyy input = some d → ¬ dateLt d today → 5 ≤ weekday d →
      admin_date today ctx input = (MSG_DATE_WEEKEND_ADMIN, StateId.ADMIN_DATE, ctx) ∧
      staff_date today ctx input = (MSG_DATE_WEEKEND_STAFF, StateId.STAFF_DATE, ctx)) ∧
    (∀ d, parse_date_ddmmyyyy input = some d → ¬ dateLt d today → weekday d < 5 →
      admin_date today ctx input =
        (MSG_PICK_OFFICER_UPDATE, StateId.ADMIN_OFFICER, { ctx with date := formatDate d }) ∧
      staff_date today ctx input =
        ("Tarikh ditetapkan kepada " ++ formatDate d ++ ". Sila pilih pegawai untuk disemak:",
         StateId.STAFF_OFFICER, { ctx with date := formatDate d, checked_once := false })) ∧
    (MSG_DATE_FMT ≠ MSG_DATE_PAST_ADMIN ∧ MSG_DATE_FMT ≠ MSG_DATE_WEEKEND_ADMIN ∧
     MSG_DATE_PAST_ADMIN ≠ MSG_DATE_WEEKEND_ADMIN ∧ MSG_DATE_FMT ≠ MSG_DATE_PAST_STAFF ∧
     MSG_DATE_FMT ≠ MSG_DATE_WEEKEND_STAFF ∧ MSG_DATE_PAST_STAFF ≠ MSG_DATE_WEEKEND_STAFF) := by
  refine ⟨?_, ?_, ?_, ?_, by refine ⟨?_, ?_, ?_, ?_, ?_, ?_⟩ <;> decide⟩
  · intro h
    constructor
    · unfold admin_date; rw [h]
    · unfold staff_date; rw [h]
  · intro d h hlt
    have hv : validate_not_past_and_not_weekend d today = none := by
      unfold validate_not_past_and_not_weekend
      rw [if_pos hlt]
    constructor
    · unfold admin_date
      rw [h]
      dsimp only
      rw [hv]
      dsimp only
      rw [if_pos hlt]
    · unfold staff_date
      rw [h]
      dsimp only
      rw [hv]
      dsimp only
      rw [if_pos hlt]
  · intro d h hnlt hwk
    have hv : validate_not_past_and_not_weekend d today = none := by
      unfold validate_not_past_and_not_weekend
      rw [if_neg hnlt, if_pos hwk]
    constructor
    · unfold admin_date
      rw [h]
      dsimp only
      rw [hv]
      dsimp only
      rw [if_neg hnlt, if_pos hwk]
    · unfold staff_date
      rw [h]
      dsimp only
      rw [hv]
      dsimp only
      rw [if_neg hnlt, if_pos hwk]
  · intro d h hnlt hwk
    have hnw : ¬ 5 ≤ weekday d := by omega
    have hv : validate_not_past_and_not_weekend d today = some d := by
      unfold validate_not_past_and_not_weekend
      rw [if_neg hnlt, if_neg hnw]
    constructor
    · unfold admin_date
      rw [h]
      dsimp only
      rw [hv]
    · unfold staff_date
      rw [h]
      dsimp only
      rw [hv]

/-- C3 witness: a concrete unparseable input, past date, weekend date and
accepted working date, checked against today = Monday 12/10/2026. -/
theorem date_entry_validation_witness :
    admin_date ⟨2026, 10, 12⟩ emptyCtx "banana" = (MSG_DATE_FMT, StateId.ADMIN_DATE, emptyCtx) ∧
    admin_date ⟨2026, 10, 12⟩ emptyCtx "04/01/2020" =
      (MSG_DATE_PAST_ADMIN, StateId.ADMIN_DATE, emptyCtx) ∧
    staff_date ⟨2026, 10, 12⟩ emptyCtx "17/10/2026" =
      (MSG_DATE_WEEKEND_STAFF, StateId.STAFF_DATE, emptyCtx) ∧
    admin_date ⟨2026, 10, 12⟩ emptyCtx "13/10/2026" =
      (MSG_PICK_OFFICER_UPDATE, StateId.ADMIN_OFFICER,
       { emptyCtx with date := "13/10/2026" }) := by
  refine ⟨((date_entry_validation ⟨2026, 10, 12⟩ emptyCtx "banana").1 (by decide)).1,
          ((date_entry_validation ⟨2026, 10, 12⟩ emptyCtx "04/01/2020").2.1 ⟨2020, 1, 4⟩
            (by decide) (by decide)).1,
          ((date_entry_validation ⟨2026, 10, 12⟩ emptyCtx "17/10/2026").2.2.1 ⟨2026, 10, 17⟩
            (by decide) (by decide) (by decide)).2, ?_⟩
  have h := ((date_entry_validation ⟨2026, 10, 12⟩ emptyCtx "13/10/2026").2.2.2.1 ⟨2026, 10, 13⟩
    (by decide) (by decide) (by decide)).1
  exact h.trans (by decide)

/-! ## Credential map lemmas -/

theorem dictInsert_keysNodup (k v : String) (m : List (String × String))
    (h : (m.map Prod.fst).Nodup) : ((dictInsert k v m).map Prod.fst).Nodup := by
  unfold dictInsert
  by_cases hk : m.any (fun q => q.1 == k) = true
  · rw [if_pos hk]
    have heq : (m.map (fun q => if q.1 == k then (k, v) else q)).map Prod.fst =
        m.map Prod.fst := by
      rw [List.map_map]
      refine List.map_congr_left fun q _ => ?_
      show (if q.1 == k then (k, v) else q).1 = q.1
      by_cases hq : q.1 == k
      · have : q.1 = k := by simpa using hq
        rw [if_pos hq]
        exact this.symm
      · rw [if_neg hq]
    rw [heq]
    exact h
  · rw [if_neg hk]
    rw [List.map_append]
    have hkn : k ∉ m.map Prod.fst := by
      intro hmem
      obtain ⟨q, hq, hqk⟩ := List.mem_map.mp hmem
      exact hk (List.any_eq_true.mpr ⟨q, hq, by simp [hqk]⟩)
    simp only [List.map_cons, List.map_nil]
    rw [List.nodup_append]
    exact ⟨h, List.nodup_singleton k, fun a ha hb => by
      simp only [List.mem_singleton] at hb
      subst hb
      exact hkn ha⟩

theorem credStep_keysNodup (n p : Option String) (m : List (String × String))
    (h : (m.map Prod.fst).Nodup) : ((credStep n p m).map Prod.fst).Nodup := by
  unfold credStep
  cases truthyOpt n <;> cases truthyOpt p <;>
    first
      | exact h
      | exact dictInsert_keysNodup _ _ _ h

theorem loadAdmin_keysNodup (n1 p1 n2 p2 n3 p3 : Option String) :
    ((loadAdminCredentials n1 p1 n2 p2 n3 p3).map Prod.fst).Nodup := by
  unfold loadAdminCredentials
  exact credStep_keysNodup _ _ _
    (credStep_keysNodup _ _ _ (credStep_keysNodup _ _ _ List.nodup_nil))

theorem dictGet_eq_some_iff (m : List (String × String))
    (h : (m.map Prod.fst).Nodup) (k v : String) :
    dictGet m k = some v ↔ (k, v) ∈ m := by
  induction m with
  | nil => simp [dictGet, List.lookup]
  | cons q m ih =>
    obtain ⟨k', v'⟩ := q
    rw [List.map_cons] at h
    have h1 : k' ∉ m.map Prod.fst := (List.nodup_cons.mp h).1
    have h2 := (List.nodup_cons.mp h).2
    by_cases hk : (k == k') = true
    · have hkk : k = k' := by simpa using hk
      subst hkk
      simp only [dictGet, List.lookup, beq_self_eq_true]
      constructor
      · intro hv
        injection hv with hv
        subst hv
        exact List.mem_cons_self _ _
      · intro hmem
        rcases List.mem_cons.mp hmem with heq | hmem'
        · injection heq with _ hv
          rw [hv]
        · exact absurd (List.mem_map.mpr ⟨(k, v), hmem', rfl⟩) h1
    · have hne : k ≠ k' := fun hc => hk (by simp [hc])
      simp only [dictGet, List.lookup, hk]
      show dictGet m k = some v ↔ (k, v) ∈ (k', v') :: m
      rw [ih h2]
      simp only [List.mem_cons]
      constructor
      · exact Or.inr
      · intro hmem
        rcases hmem with heq | hmem'
        · injection heq with hh _
          exact absurd hh hne
        · exact hmem'

/-- C5: the password handler proceeds to the admin main menu exactly when the
entered username/password pair is one of the configured credential entries
loaded at startup; any other pair ends the conversation immediately (no
retry state is offered). -/
theorem admin_password_gate (n1 p1 n2 p2 n3 p3 : Option String) (ctx : Ctx) (input u : String)
    (hu : ctx.username = some u) :
    ((admin_password (loadAdminCredentials n1 p1 n2 p2 n3 p3) ctx input).2.1 =
        StateId.ADMIN_MAIN_MENU ↔
      (u, pyStrip input) ∈ loadAdminCredentials n1 p1 n2 p2 n3 p3) ∧
    ((u, pyStrip input) ∉ loadAdminCredentials n1 p1 n2 p2 n3 p3 →
      admin_password (loadAdminCredentials n1 p1 n2 p2 n3 p3) ctx input =
        (MSG_WRONG_PASSWORD, StateId.END, ctx)) := by
  have hget := dictGet_eq_some_iff (loadAdminCredentials n1 p1 n2 p2 n3 p3)
    (loadAdmin_keysNodup n1 p1 n2 p2 n3 p3) u (pyStrip input)
  unfold admin_password
  rw [hu]
  dsimp only
  by_cases hmem : (u, pyStrip input) ∈ loadAdminCredentials n1 p1 n2 p2 n3 p3
  · have hg : dictGet (loadAdminCredentials n1 p1 n2 p2 n3 p3) u = some (pyStrip input) :=
      hget.mpr hmem
    rw [hg]
    simp [hmem]
  · have hg : dictGet (loadAdminCredentials n1 p1 n2 p2 n3 p3) u ≠ some (pyStrip input) :=
      fun hc => hmem (hget.mp hc)
    rw [if_pos hg]
    exact ⟨iff_of_false (by simp) hmem, fun _ => rfl⟩

/-- C5 witness: a configured pair logs in; an unconfigured password ends the
session at once. -/
theorem admin_password_gate_witness :
    (admin_password credsA ctxA "pw1").2.1 = StateId.ADMIN_MAIN_MENU ∧
    admin_password credsA ctxA "wrong" = (MSG_WRONG_PASSWORD, StateId.END, ctxA) := by
  constructor
  · exact (admin_password_gate (some "alice") (some "pw1") none none none none ctxA "pw1"
      "alice" rfl).1.mpr (by decide)
  · exact (admin_password_gate (some "alice") (some "pw1") none none none none ctxA "wrong"
      "alice" rfl).2 (by decide)

/-- C1: a completed LUAR DAERAH submission persists a row whose start and end
time fields are both the empty string, and its calendar side effect is the
all-day event creation — whose built body spans [date, date + 1) with
date-only bounds — never the timed event creation. -/
theorem luar_daerah_submission (env : BotEnv) (ctx : Ctx) (input : String) (d : Date)
    (hloc : ctx.lokasi = "LUAR DAERAH")
    (happ : env.appendResult = .ok ())
    (hd : parse_date_ddmmyyyy ctx.date = some d) :
    ∃ calOk : Bool,
      admin_membership_status env ctx input =
        .ok ([Effect.saveRow (save_status_row ctx.date ctx.officer ctx.lokasi ctx.urusan_rasmi
                (pyStrip input) "" "" (ctx.username.getD "admin") env.now),
              Effect.calAllDay ctx.date ctx.officer ctx.urusan_rasmi (pyStrip input)],
             if calOk then MSG_LD_CAL_OK else MSG_LD_CAL_FAIL,
             StateId.ADMIN_CONTINUE_DECISION, { ctx with status_keahlian := pyStrip input }) ∧
      (save_status_row ctx.date ctx.officer ctx.lokasi ctx.urusan_rasmi (pyStrip input) "" ""
          (ctx.username.getD "admin") env.now).get? 5 = some "" ∧
      (save_status_row ctx.date ctx.officer ctx.lokasi ctx.urusan_rasmi (pyStrip input) "" ""
          (ctx.username.getD "admin") env.now).get? 6 = some "" ∧
      (([Effect.saveRow (save_status_row ctx.date ctx.officer ctx.lokasi ctx.urusan_rasmi
            (pyStrip input) "" "" (ctx.username.getD "admin") env.now),
         Effect.calAllDay ctx.date ctx.officer ctx.urusan_rasmi (pyStrip input)].all
          fun e => !(e.isCalTimed)) = true) ∧
      luar_daerah_event_body ctx.date ctx.officer ctx.urusan_rasmi (pyStrip input) =
        some (GCalEvent.allDay ("LUAR DAERAH — " ++ code_to_label ctx.officer) "LUAR DAERAH"
          (event_description ctx.urusan_rasmi (pyStrip input) "LUAR DAERAH") d (succDate d)) := by
  obtain ⟨b, hb⟩ := create_luar_total env.cal ctx.date ctx.officer ctx.urusan_rasmi
    (pyStrip input)
  refine ⟨b, ?_, rfl, rfl, rfl, ?_⟩
  · unfold admin_membership_status
    dsimp only
    rw [hloc, happ, hb]
    rw [if_pos (by rfl : (("LUAR DAERAH" == "LUAR DAERAH") = true))]
  · unfold luar_daerah_event_body
    rw [hd]

/-- C1 witness: a concrete completed LUAR DAERAH submission. -/
theorem luar_daerah_submission_witness :
    ∃ calOk : Bool,
      admin_membership_status okBotEnv ldCtx "Ahli Biasa" =
        .ok ([Effect.saveRow (save_status_row ldCtx.date ldCtx.officer ldCtx.lokasi
                ldCtx.urusan_rasmi (pyStrip "Ahli Biasa") "" "" (ldCtx.username.getD "admin")
                okBotEnv.now),
              Effect.calAllDay ldCtx.date ldCtx.officer ldCtx.urusan_rasmi
                (pyStrip "Ahli Biasa")],
             if calOk then MSG_LD_CAL_OK else MSG_LD_CAL_FAIL,
             StateId.ADMIN_CONTINUE_DECISION, { ldCtx with status_keahlian := pyStrip "Ahli Biasa" }) ∧
      (save_status_row ldCtx.date ldCtx.officer ldCtx.lokasi ldCtx.urusan_rasmi
          (pyStrip "Ahli Biasa") "" "" (ldCtx.username.getD "admin") okBotEnv.now).get? 5 =
        some "" ∧
      (save_status_row ldCtx.date ldCtx.officer ldCtx.lokasi ldCtx.urusan_rasmi
          (pyStrip "Ahli Biasa") "" "" (ldCtx.username.getD "admin") okBotEnv.now).get? 6 =
        some "" ∧
      (([Effect.saveRow (save_status_row ldCtx.date ldCtx.officer ldCtx.lokasi
            ldCtx.urusan_rasmi (pyStrip "Ahli Biasa") "" "" (ldCtx.username.getD "admin")
            okBotEnv.now),
         Effect.calAllDay ldCtx.date ldCtx.officer ldCtx.urusan_rasmi
           (pyStrip "Ahli Biasa")].all fun e => !(e.isCalTimed)) = true) ∧
      luar_daerah_event_body ldCtx.date ldCtx.officer ldCtx.urusan_rasmi (pyStrip "Ahli Biasa") =
        some (GCalEvent.allDay ("LUAR DAERAH — " ++ code_to_label ldCtx.officer) "LUAR DAERAH"
          (event_description ldCtx.urusan_rasmi (pyStrip "Ahli Biasa") "LUAR DAERAH")
          ⟨2026, 10, 13⟩ (succDate ⟨2026, 10, 13⟩)) := by
  exact luar_daerah_submission okBotEnv ldCtx "Ahli Biasa" ⟨2026, 10, 13⟩ rfl rfl (by decide)

/-- C6: on a well-formed sheet, `delete_status` removes exactly the rows whose
date, officer and business-description fields all equal the arguments (all of
them when several match), returns true iff at least one row was removed, and
afterwards a query for that date and officer no longer contains any removed
row. -/
theorem delete_exact_match (dateStr officerCode urusan : String) (data : List Row)
    (wf : ∀ r ∈ data, r.length = SHEET_HEADERS.length) :
    (delete_status dateStr officerCode urusan (SHEET_HEADERS :: data)).1 =
      SHEET_HEADERS :: data.filter
        (fun r => !(rowFieldsMatch SHEET_HEADERS dateStr officerCode urusan r)) ∧
    ((delete_status dateStr officerCode urusan (SHEET_HEADERS :: data)).2 = true ↔
      ∃ r ∈ data, rowFieldsMatch SHEET_HEADERS dateStr officerCode urusan r = true) ∧
    (∀ r ∈ data, rowFieldsMatch SHEET_HEADERS dateStr officerCode urusan r = true →
      r ∉ query_status dateStr officerCode
        (delete_status dateStr officerCode urusan (SHEET_HEADERS :: data)).1) := by
  have hkey : ∀ r ∈ data, rowMatchesDel SHEET_HEADERS dateStr officerCode urusan r =
      rowFieldsMatch SHEET_HEADERS dateStr officerCode urusan r := by
    intro r hr
    unfold rowMatchesDel rowFieldsMatch
    rw [wf r hr]
    simp
  have hdel := delete_status_eq_filter dateStr officerCode urusan SHEET_HEADERS data
  have h1 : (delete_status dateStr officerCode urusan (SHEET_HEADERS :: data)).1 =
      SHEET_HEADERS :: data.filter
        (fun r => !(rowFieldsMatch SHEET_HEADERS dateStr officerCode urusan r)) := by
    rw [hdel]
    exact congrArg (SHEET_HEADERS :: ·)
      (List.filter_congr fun r hr => by rw [hkey r hr])
  have h2 : (delete_status dateStr officerCode urusan (SHEET_HEADERS :: data)).2 = true ↔
      ∃ r ∈ data, rowFieldsMatch SHEET_HEADERS dateStr officerCode urusan r = true := by
    rw [hdel]
    rw [show ((SHEET_HEADERS :: data.filter
        (fun r => !(rowMatchesDel SHEET_HEADERS dateStr officerCode urusan r)),
        data.any (rowMatchesDel SHEET_HEADERS dateStr officerCode urusan)).2 = true) =
        (data.any (rowMatchesDel SHEET_HEADERS dateStr officerCode urusan) = true) from rfl]
    rw [List.any_eq_true]
    constructor
    · rintro ⟨r, hr, hm⟩
      exact ⟨r, hr, (hkey r hr).symm.trans hm⟩
    · rintro ⟨r, hr, hm⟩
      exact ⟨r, hr, (hkey r hr).trans hm⟩
  refine ⟨h1, h2, ?_⟩
  intro r hr hm hq
  rw [h1] at hq
  have hq' : r ∈ (data.filter
      (fun x => !(rowFieldsMatch SHEET_HEADERS dateStr officerCode urusan x))).filter
      (fun x => (zipLookup SHEET_HEADERS (padTo SHEET_HEADERS.length x) "date" ==
        some dateStr) &&
        (zipLookup SHEET_HEADERS (padTo SHEET_HEADERS.length x) "officer" ==
        some officerCode)) := hq
  have hrf := (List.mem_filter.mp hq').1
  have hrf2 := List.mem_filter.mp hrf
  rw [hm] at hrf2
  exact absurd hrf2.2 (by decide)

/-- C6 witness: deleting a concrete matching row removes it, reports success,
and the subsequent query no longer lists it. -/
theorem delete_exact_match_witness :
    (delete_status "13/10/2026" "DO" "Mesyuarat" (SHEET_HEADERS :: [rowA, rowB])).1 =
      SHEET_HEADERS :: [rowB] ∧
    (delete_status "13/10/2026" "DO" "Mesyuarat" (SHEET_HEADERS :: [rowA, rowB])).2 = true ∧
    rowA ∉ query_status "13/10/2026" "DO"
      (delete_status "13/10/2026" "DO" "Mesyuarat" (SHEET_HEADERS :: [rowA, rowB])).1 := by
  have h := delete_exact_match "13/10/2026" "DO" "Mesyuarat" [rowA, rowB] (by decide)
  exact ⟨h.1.trans (by decide), h.2.1.mpr ⟨rowA, by decide, by decide⟩,
    h.2.2 rowA (by decide) (by decide)⟩

/-- C10: `delete_status` collects the matching 1-based indices, deletes them
in strictly descending order (so earlier deletions never shift the indices of
rows still to be deleted), and consequently removes exactly the matching rows
while every non-matching row survives. -/
theorem delete_descending_indices (dateStr officerCode urusan : String) (headers : Row)
    (data : List Row) :
    (sortDesc (idxsFrom (rowMatchesDel headers dateStr officerCode urusan) 2 data)).Pairwise
        (· > ·) ∧
    (delete_status dateStr officerCode urusan (headers :: data)).1 =
      headers :: data.filter (fun r => !(rowMatchesDel headers dateStr officerCode urusan r)) ∧
    ((delete_status dateStr officerCode urusan (headers :: data)).2 = true ↔
      ∃ r ∈ data, rowMatchesDel headers dateStr officerCode urusan r = true) := by
  have hdel := delete_status_eq_filter dateStr officerCode urusan headers data
  refine ⟨?_, ?_, ?_⟩
  · rw [sortDesc_of_pairwise_lt _
      (idxsFrom_pairwise (rowMatchesDel headers dateStr officerCode urusan) 2 data)]
    rw [List.pairwise_reverse]
    exact idxsFrom_pairwise _ 2 data
  · rw [hdel]
  · rw [hdel]
    exact List.any_eq_true

/-- C7 (amended): the calendar creation functions return a boolean on every
outcome — their try/except wrapper never lets an error propagate — and when a
creator reports failure after a successful store write, the handler replies
with the qualified success message and still advances to the continue-decision
state.  (Store write failures, by contrast, are not caught at the call site;
see the counterexample theorem.) -/
theorem calendar_failure_handling (env : BotEnv) (ctx : Ctx) :
    (∀ dateStr startT endT officer lokasi urusan status,
      ∃ b, create_calendar_event_for_meeting env.cal dateStr startT endT officer lokasi urusan
        status = .ok b) ∧
    (∀ dateStr officer urusan status,
      ∃ b, create_calendar_event_for_luar_daerah env.cal dateStr officer urusan status =
        .ok b) ∧
    (∀ input, ctx.lokasi = "LUAR DAERAH" → env.appendResult = .ok () →
      create_calendar_event_for_luar_daerah env.cal ctx.date ctx.officer ctx.urusan_rasmi
        (pyStrip input) = .ok false →
      admin_membership_status env ctx input =
        .ok ([Effect.saveRow (save_status_row ctx.date ctx.officer ctx.lokasi ctx.urusan_rasmi
                (pyStrip input) "" "" (ctx.username.getD "admin") env.now),
              Effect.calAllDay ctx.date ctx.officer ctx.urusan_rasmi (pyStrip input)],
             MSG_LD_CAL_FAIL, StateId.ADMIN_CONTINUE_DECISION,
             { ctx with status_keahlian := pyStrip input })) ∧
    (∀ input t, parse_time_hhmm input = some t → env.appendResult = .ok () →
      create_calendar_event_for_meeting env.cal ctx.date ctx.start_time t ctx.officer ctx.lokasi
        ctx.urusan_rasmi ctx.status_keahlian = .ok false →
      admin_official_business_end env ctx input =
        .ok ([Effect.saveRow (save_status_row ctx.date ctx.officer ctx.lokasi ctx.urusan_rasmi
                ctx.status_keahlian ctx.start_time t (ctx.username.getD "admin") env.now),
              Effect.calTimed ctx.date ctx.start_time t ctx.officer ctx.lokasi ctx.urusan_rasmi
                ctx.status_keahlian],
             MSG_K_CAL_FAIL, StateId.ADMIN_CONTINUE_DECISION, { ctx with end_time := t })) := by
  refine ⟨fun dateStr startT endT officer lokasi urusan status =>
      create_meeting_total env.cal dateStr startT endT officer lokasi urusan status,
    fun dateStr officer urusan status =>
      create_luar_total env.cal dateStr officer urusan status, ?_, ?_⟩
  · intro input hloc happ hcal
    unfold admin_membership_status
    dsimp only
    rw [hloc, happ, hcal]
    rw [if_pos (by rfl : (("LUAR DAERAH" == "LUAR DAERAH") = true))]
    rfl
  · intro input t h happ hcal
    unfold admin_official_business_end
    rw [h]
    dsimp only
    rw [happ, hcal]
    rfl

/-- C7 counterexample: a failing store write during a LUAR DAERAH submission
is not caught at the call site — the handler propagates the exception, so no
qualified success message is sent and the session does not advance. -/
theorem store_failure_uncaught :
    admin_membership_status badAppendBotEnv ldCtx "Ahli Biasa" = .error PyErr.exception := by
  decide

/-- C7 witness: a concrete calendar insertion failure after a successful
store write produces the qualified success reply and advances the session. -/
theorem calendar_failure_handling_witness :
    admin_membership_status qualifiedBotEnv ldCtx "Ahli Biasa" =
      .ok ([Effect.saveRow (save_status_row ldCtx.date ldCtx.officer ldCtx.lokasi
              ldCtx.urusan_rasmi (pyStrip "Ahli Biasa") "" "" (ldCtx.username.getD "admin")
              qualifiedBotEnv.now),
            Effect.calAllDay ldCtx.date ldCtx.officer ldCtx.urusan_rasmi (pyStrip "Ahli Biasa")],
           MSG_LD_CAL_FAIL, StateId.ADMIN_CONTINUE_DECISION,
           { ldCtx with status_keahlian := pyStrip "Ahli Biasa" }) := by
  exact (calendar_failure_handling qualifiedBotEnv ldCtx).2.2.1 "Ahli Biasa" rfl rfl (by decide)

/-- C8 (code bug): the staff summary reads the record keys "masa mula" and
"masa tamat", which do not exist under the sheet header row the code itself
creates ("start_time"/"end_time"); a KENINGAU row persisted by `save_status`
with both times present therefore renders "Masa: Tidak dinyatakan" instead of
the start-end line, while the location, business and membership lines (whose
keys do match) render correctly. -/
theorem staff_render_time_key_mismatch :
    renderRecordLines SHEET_HEADERS rowA =
      ["Lokasi: KENINGAU", "Urusan Rasmi: Mesyuarat", "Status Keahlian: Ahli Biasa",
       "Masa: Tidak dinyatakan", "---"] ∧
    zipLookup SHEET_HEADERS rowA "start_time" = some "09:00" ∧
    zipLookup SHEET_HEADERS rowA "end_time" = some "10:00" ∧
    "Masa: 09:00 - 10:00" ∉ renderRecordLines SHEET_HEADERS rowA ∧
    renderRecordLines SHEET_HEADERS rowB =
      ["Lokasi: LUAR DAERAH", "Urusan Rasmi: Lawatan", "Status Keahlian: Jemputan",
       "Masa: Sepanjang Hari", "---"] := by
  refine ⟨by decide, by decide, by decide, by decide, by decide⟩

/-- C9 (code bug): the delete-flow date prompt applies no past or weekend
filtering — a past Saturday is accepted and the flow advances to officer
selection — and the LUAR DAERAH selection label renders as specified; but the
timed-record label reads the nonexistent "masa mula"/"masa tamat" keys under
the code's own header row, so a timed KENINGAU row with both time fields
populated is labelled with the bare description instead of
"start-end: description". -/
theorem delete_flow_no_filter_and_labels :
    admin_delete_date emptyCtx "04/01/2020" =
      (MSG_PICK_OFFICER_DELETE, StateId.ADMIN_DELETE_OFFICER,
       { emptyCtx with delete_date := "04/01/2020" }) ∧
    dateLt ⟨2020, 1, 4⟩ ⟨2026, 10, 12⟩ ∧ weekday ⟨2020, 1, 4⟩ = 5 ∧
    admin_delete_officer_labels (SHEET_HEADERS :: [rowA, rowB]) "13/10/2026" "DO" =
      ["Mesyuarat", "LUAR DAERAH: Lawatan"] ∧
    zipLookup SHEET_HEADERS rowA "start_time" = some "09:00" ∧
    zipLookup SHEET_HEADERS rowA "end_time" = some "10:00" ∧
    deleteSelectLabel SHEET_HEADERS rowA ≠ "09:00-10:00: Mesyuarat" := by
  refine ⟨by decide, by decide, by decide, by decide, by decide, by decide, by decide⟩
